import Mathlib

/-!
Verification development for the neptune garbage collector core.

Definitions in this file are shallow embeddings of the Rust source under
`src/neptune/src/`: machine words (`usize`) are modelled as `Nat` with an
explicit `% 2 ^ 64` wherever the hardware truncates, signed 64-bit values
as `Int` with Rust's truncating division written `Int.tdiv`, fallible code
as `Option`, and mutation as explicit state passing.  Each definition's doc
comment names the source item it embeds.
-/

namespace Neptune

/-- Bit width of `usize` on the 64-bit target (`bit_length` in util.rs). -/
def W : Nat := 64

/-- Rust `<<` on `usize`: the mathematical shift truncated to the word width. -/
def shl64 (x k : Nat) : Nat := (x <<< k) % 2 ^ W

/-- Rust `>>` on `usize` (logical shift right). -/
def shr64 (x k : Nat) : Nat := x >>> k

/-- Rust `!` (bitwise complement) on `usize`. -/
def not64 (x : Nat) : Nat := x ^^^ (2 ^ W - 1)

/-- `BitField::get_bits` for `usize` (util.rs lines 42-48):
`*self << (bit_length - end) >> (bit_length - end) >> start`. -/
def get_bits (w s e : Nat) : Nat := shr64 (shr64 (shl64 w (W - e)) (W - e)) s

/-- `BitField::set_bits` for `usize` (util.rs lines 51-68):
mask out the range, then or in `value << start`. -/
def set_bits (w s e v : Nat) : Nat :=
  let bitmask : Nat := not64 (shl64 (shr64 (shr64 (shl64 (not64 0) (W - e)) (W - e)) s) s)
  (w &&& bitmask) ||| shl64 v s

/-- `BitField::get_bit` for `usize` (util.rs lines 24-27): `(self & (1 << bit)) != 0`. -/
def get_bit (w i : Nat) : Bool := (w &&& shl64 1 i) != 0

/-- Shifting all the way left and back truncates to the low `e` bits. -/
lemma shl_shr_cancel (w e : Nat) (he : e ≤ W) :
    shr64 (shl64 w (W - e)) (W - e) = w % 2 ^ e := by
  unfold shl64 shr64
  rw [Nat.shiftLeft_eq, Nat.shiftRight_eq_div_pow]
  have h2 : (2 : Nat) ^ W = 2 ^ e * 2 ^ (W - e) := by
    rw [← pow_add]
    congr 1
    omega
  rw [h2, Nat.mul_mod_mul_right, Nat.mul_div_cancel _ (Nat.two_pow_pos _)]

/-- `get_bits` extracts bits `s` to `e-1`: arithmetic characterization. -/
lemma get_bits_eq (w s e : Nat) (he : e ≤ W) :
    get_bits w s e = w % 2 ^ e / 2 ^ s := by
  unfold get_bits
  rw [shl_shr_cancel w e he]
  unfold shr64
  rw [Nat.shiftRight_eq_div_pow]

/-- Bit-level characterization of `get_bits`. -/
lemma get_bits_testBit (w s e : Nat) (he : e ≤ W) (j : Nat) :
    (get_bits w s e).testBit j = (decide (s + j < e) && w.testBit (s + j)) := by
  rw [get_bits_eq w s e he, ← Nat.shiftRight_eq_div_pow, Nat.testBit_shiftRight,
    Nat.testBit_mod_two_pow]

/-- The all-ones word truncated to `e` bits is the `e`-bit mask. -/
lemma allones_mod (e : Nat) (he : e ≤ W) : (2 ^ W - 1) % 2 ^ e = 2 ^ e - 1 := by
  apply Nat.eq_of_testBit_eq
  intro i
  rw [Nat.testBit_mod_two_pow, Nat.testBit_two_pow_sub_one, Nat.testBit_two_pow_sub_one]
  by_cases h : i < e
  · have : i < W := lt_of_lt_of_le h he
    simp [h, this]
  · simp [h]

/-- The mask built inside `set_bits` keeps exactly the bits outside `s..e`
(and below the word width). -/
lemma set_bits_mask_testBit (s e : Nat) (hse : s < e) (he : e ≤ W) (i : Nat) :
    (not64 (shl64 (shr64 (shr64 (shl64 (not64 0) (W - e)) (W - e)) s) s)).testBit i =
      (decide (i < W) && !(decide (s ≤ i) && decide (i < e))) := by
  have h0 : not64 0 = 2 ^ W - 1 := by
    unfold not64
    simp
  rw [h0]
  have h1 : shr64 (shl64 (2 ^ W - 1) (W - e)) (W - e) = 2 ^ e - 1 := by
    rw [shl_shr_cancel _ e he, allones_mod e he]
  rw [h1]
  have h2 : shl64 (shr64 (2 ^ e - 1) s) s = ((2 ^ e - 1) >>> s) <<< s := by
    unfold shl64 shr64
    apply Nat.mod_eq_of_lt
    rw [Nat.shiftLeft_eq, Nat.shiftRight_eq_div_pow]
    calc (2 ^ e - 1) / 2 ^ s * 2 ^ s ≤ 2 ^ e - 1 := Nat.div_mul_le_self _ _
      _ < 2 ^ W := by
        have h2e : (2:Nat) ^ e ≤ 2 ^ W := Nat.pow_le_pow_right (by omega) he
        have hpos : 0 < (2:Nat) ^ e := Nat.two_pow_pos _
        omega
  rw [h2]
  unfold not64
  rw [Nat.testBit_xor, Nat.testBit_two_pow_sub_one, Nat.testBit_shiftLeft,
    Nat.testBit_shiftRight, Nat.testBit_two_pow_sub_one]
  by_cases hiw : i < W
  · by_cases hs : s ≤ i
    · by_cases hie : i < e
      · simp [hiw, hs, hie, Nat.add_sub_cancel' hs]
      · simp [hiw, hs, hie, Nat.add_sub_cancel' hs]
    · simp [hiw, hs]
  · have hse' : ¬ (i < e) := by omega
    have hs : s ≤ i := by omega
    have hcan : s + (i - s) = i := by omega
    simp only [hcan]
    simp [hiw, hs, hse']

/-- Bit-level characterization of `set_bits` for an in-range value. -/
lemma set_bits_testBit (w s e v : Nat) (hse : s < e) (he : e ≤ W)
    (hv : v < 2 ^ (e - s)) (i : Nat) :
    (set_bits w s e v).testBit i =
      if s ≤ i ∧ i < e then v.testBit (i - s)
      else (w.testBit i && decide (i < W)) := by
  unfold set_bits
  rw [Nat.testBit_lor, Nat.testBit_land, set_bits_mask_testBit s e hse he]
  have hshl : (shl64 v s).testBit i = (decide (i < W) && (decide (s ≤ i) && v.testBit (i - s))) := by
    unfold shl64
    rw [Nat.testBit_mod_two_pow, Nat.testBit_shiftLeft]
  rw [hshl]
  by_cases h1 : s ≤ i
  · by_cases h2 : i < e
    · have hiw : i < W := lt_of_lt_of_le h2 he
      simp [h1, h2, hiw]
    · have hvb : v.testBit (i - s) = false := by
        apply Nat.testBit_lt_two_pow
        calc v < 2 ^ (e - s) := hv
          _ ≤ 2 ^ (i - s) := Nat.pow_le_pow_right (by omega) (by omega)
      simp [h1, h2, hvb, Bool.and_comm]
  · simp [h1, Bool.and_comm]

/-- Round-trip law for the bit-field accessors, usable on its own. -/
lemma get_bits_set_bits (w s e v : Nat) (hse : s < e) (he : e ≤ W)
    (hv : v < 2 ^ (e - s)) :
    get_bits (set_bits w s e v) s e = v := by
  apply Nat.eq_of_testBit_eq
  intro j
  rw [get_bits_testBit _ s e he, set_bits_testBit w s e v hse he hv]
  by_cases hj : s + j < e
  · simp [hj, Nat.le_add_right, Nat.add_sub_cancel_left]
  · have hvb : v.testBit j = false := by
      apply Nat.testBit_lt_two_pow
      calc v < 2 ^ (e - s) := hv
        _ ≤ 2 ^ j := Nat.pow_le_pow_right (by omega) (by omega)
    simp [hj, hvb]

/-- Frame law for the bit-field update, usable on its own. -/
lemma set_bits_frame (w s e v : Nat) (hse : s < e) (he : e ≤ W)
    (hv : v < 2 ^ (e - s)) (hw : w < 2 ^ W) :
    ∀ i, i < s ∨ e ≤ i → (set_bits w s e v).testBit i = w.testBit i := by
  intro i hi
  rw [set_bits_testBit w s e v hse he hv]
  have hcond : ¬ (s ≤ i ∧ i < e) := by omega
  simp only [hcond, if_false]
  by_cases hiw : i < W
  · simp [hiw]
  · have : w.testBit i = false := by
      apply Nat.testBit_lt_two_pow
      calc w < 2 ^ W := hw
        _ ≤ 2 ^ i := Nat.pow_le_pow_right (by omega) (by omega)
    simp [hiw, this]

/-- C10: For every machine word `w`, every bit range `s..e` with
`0 ≤ s < e ≤ 64`, and every value `v` representable in `e - s` bits,
`get_bits (set_bits w (s..e) v) (s..e) = v`, and every bit of
`set_bits w (s..e) v` outside the range equals the corresponding bit of `w`. -/
theorem bitfield_roundtrip_frame (w s e v : Nat) (hse : s < e) (he : e ≤ W)
    (hv : v < 2 ^ (e - s)) (hw : w < 2 ^ W) :
    get_bits (set_bits w s e v) s e = v ∧
    ∀ i, i < s ∨ e ≤ i → (set_bits w s e v).testBit i = w.testBit i :=
  ⟨get_bits_set_bits w s e v hse he hv, set_bits_frame w s e v hse he hv hw⟩

/-- Witness for C10 at the concrete input `w = 255`, range `4..8`, `v = 3`. -/
theorem bitfield_roundtrip_frame_witness :
    get_bits (set_bits 255 4 8 3) 4 8 = 3 ∧
    ∀ i, i < 4 ∨ 8 ≤ i → (set_bits 255 4 8 3).testBit i = (255 : Nat).testBit i :=
  bitfield_roundtrip_frame 255 4 8 3 (by decide) (by decide) (by decide) (by decide)

/-- Number of GC tag bits (`TAG_BITS` in gc2.rs); the tag range is `0..2`. -/
def TAG_BITS : Nat := 2

/-- `GC_CLEAN` color (gc2.rs line 33). -/
def GC_CLEAN : Nat := 0

/-- `GC_MARKED` color (gc2.rs line 34). -/
def GC_MARKED : Nat := 1

/-- `GC_OLD` color (gc2.rs line 35). -/
def GC_OLD : Nat := 2

/-- `GC_OLD_MARKED` color (gc2.rs line 36): `GC_OLD | GC_MARKED`. -/
def GC_OLD_MARKED : Nat := 3

/-- `mem::size_of::<JlTaggedValue>()`, also `SIZE_OF_JLTAGGEDVALUE` (c_interface.rs). -/
def sizeOfJlTaggedValue : Nat := 8

/-- `GC_MAX_SZCLASS` (gc2.rs line 71): `2032 - 8`. -/
def GC_MAX_SZCLASS : Nat := 2032 - 8

/-- The 41 pool size classes `GC_SIZE_CLASSES` (gc2.rs lines 48-70). -/
def GC_SIZE_CLASSES : List Nat :=
  [8,
   16, 32, 48, 64, 80, 96, 112, 128, 144, 160, 176, 192, 208, 224, 240, 256,
   272, 288, 304, 336, 368, 400, 448, 496,
   544, 576, 624, 672, 736, 816, 896, 1008,
   1088, 1168, 1248, 1360, 1488, 1632, 1808, 2032]

/-- `MAX_MARK_DEPTH` (gc2.rs line 38). -/
def MAX_MARK_DEPTH : Nat := 40

/-- `DEFAULT_COLLECT_INTERVAL` (gc2.rs line 40): `5600 * 1024 * 8`. -/
def DEFAULT_COLLECT_INTERVAL : Int := 5600 * 1024 * 8

/-- `MAX_COLLECT_INTERVAL` (gc2.rs line 41). -/
def MAX_COLLECT_INTERVAL : Nat := 1250000000

/-- `PROMOTE_AGE` (c_interface.rs line 478). -/
def PROMOTE_AGE : Nat := 1

/-- `JL_CACHE_BYTE_ALIGNMENT` (c_interface.rs line 480). -/
def JL_CACHE_BYTE_ALIGNMENT : Nat := 64

/-- `GcTag::tag` for `usize` (gc2.rs lines 203-205): `get_bits(TAG_RANGE) as u8`. -/
def tag64 (h : Nat) : Nat := get_bits h 0 TAG_BITS

/-- `GcTag::set_tag` for `usize` (gc2.rs lines 208-210): `set_bits(TAG_RANGE, tag)`. -/
def set_tag (h t : Nat) : Nat := set_bits h 0 TAG_BITS t

/-- `GcTag::marked` for `usize` (gc2.rs lines 213-215): `get_bit(0)`. -/
def marked64 (h : Nat) : Bool := get_bit h 0

/-- `GcTag::old` for `usize` (gc2.rs lines 223-225): `get_bit(1)`. -/
def old64 (h : Nat) : Bool := get_bit h 1

/-- `GcTag::type_tag` for `usize` (gc2.rs lines 235-237): `self & !0x0f`. -/
def type_tag (h : Nat) : Nat := h &&& not64 0x0f

/-- `get_bit` agrees with `Nat.testBit` for in-word indexes. -/
lemma get_bit_eq_testBit (w i : Nat) (hi : i < W) : get_bit w i = w.testBit i := by
  unfold get_bit shl64
  have h1 : ((1 : Nat) <<< i) % 2 ^ W = 2 ^ i := by
    rw [Nat.shiftLeft_eq, one_mul]
    exact Nat.mod_eq_of_lt (Nat.pow_lt_pow_right (by omega) hi)
  rw [h1, Nat.and_two_pow]
  rcases h : w.testBit i
  · simp
  · simp [Nat.two_pow_pos]

/-- The GC color tag is the low two bits of the header. -/
lemma tag64_eq_mod (h : Nat) : tag64 h = h % 4 := by
  unfold tag64 TAG_BITS
  rw [get_bits_eq h 0 2 (by unfold W; omega)]
  norm_num

/-- `set_tag` stores the new color in the low two bits. -/
lemma tag64_set_tag (h t : Nat) (ht : t < 4) : tag64 (set_tag h t) = t := by
  unfold tag64 set_tag TAG_BITS
  exact get_bits_set_bits h 0 2 t (by omega) (by unfold W; omega) (by norm_num; omega)

/-- Bits at positions `2` and above are untouched by `set_tag`. -/
lemma set_tag_frame (h t i : Nat) (ht : t < 4) (hh : h < 2 ^ W) (hi : 2 ≤ i) :
    (set_tag h t).testBit i = h.testBit i := by
  unfold set_tag TAG_BITS
  exact set_bits_frame h 0 2 t (by omega) (by unfold W; omega)
    (by norm_num; omega) hh i (Or.inr hi)

/-- The mark bit of a freshly set tag is the tag's low bit. -/
lemma set_tag_testBit_zero (h t : Nat) (ht : t < 4) :
    (set_tag h t).testBit 0 = t.testBit 0 := by
  unfold set_tag TAG_BITS
  rw [set_bits_testBit h 0 2 t (by omega) (by unfold W; omega) (by norm_num; omega) 0]
  norm_num

/-- `type_tag` is unchanged by `set_tag` (the tag bits lie inside the
cleared low nibble). -/
lemma type_tag_set_tag (h t : Nat) (ht : t < 4) (hh : h < 2 ^ W) :
    type_tag (set_tag h t) = type_tag h := by
  unfold type_tag
  apply Nat.eq_of_testBit_eq
  intro i
  rw [Nat.testBit_land, Nat.testBit_land]
  by_cases hi : 2 ≤ i
  · rw [set_tag_frame h t i ht hh hi]
  · have hnib : (not64 0x0f).testBit i = false := by
      interval_cases i
      · decide
      · decide
    simp [hnib]

/-!
C1: routing of `Gc2::alloc` (gc2.rs lines 1503-1518).  `alloc` computes
`allocsz = size.checked_add(size_of::<JlTaggedValue>())` (panicking on
overflow, modelled as `none`) and dispatches to `pool_alloc` when
`allocsz <= GC_MAX_SZCLASS + size_of::<JlTaggedValue>()`, else to `big_alloc`.
-/

/-- Which allocator serves a request. -/
inductive AllocPath where
  | pool
  | big
  deriving DecidableEq, Repr

/-- Routing decision of `Gc2::alloc` (gc2.rs lines 1503-1512). -/
def alloc_route (size : Nat) : Option AllocPath :=
  if size + sizeOfJlTaggedValue < 2 ^ W then
    some (if size + sizeOfJlTaggedValue ≤ GC_MAX_SZCLASS + sizeOfJlTaggedValue then
            AllocPath.pool
          else
            AllocPath.big)
  else
    none

/-- `Gc2::find_pool` (gc2.rs lines 1634-1649): reject sizes above
`GC_MAX_SZCLASS`, otherwise binary-search `GC_SIZE_CLASSES` for the first
class at least as large as the request (the `Ok`/`Err` arms of Rust's
`binary_search` combine to exactly that on the strictly sorted class
array, with `None` for an insertion point past the end). -/
def find_pool (size : Nat) : Option Nat :=
  if size > GC_MAX_SZCLASS then
    none
  else
    GC_SIZE_CLASSES.findIdx? (fun c => size ≤ c)

/-- C1 counterexample: a request of 2025 bytes plus the one-word header is
2033 bytes, within the claimed pool bound `2032 + word_size = 2040`, yet the
code routes it to the big-object allocator (`GC_MAX_SZCLASS` is `2024`, not
`2032`). -/
theorem alloc_route_claim_counterexample :
    ¬ (alloc_route 2025 = some AllocPath.big ↔
        2025 + sizeOfJlTaggedValue > 2032 + sizeOfJlTaggedValue) := by
  decide

/-- C1 (amended): a request is served by the big-object allocator iff the
requested size plus the one-word header exceeds 2032 bytes (that is,
`GC_MAX_SZCLASS + word_size` with `GC_MAX_SZCLASS = 2024`); every smaller
request is served from a size-class pool, and a pool size class exists
for it. -/
theorem alloc_route_threshold (size : Nat)
    (hof : size + sizeOfJlTaggedValue < 2 ^ W) :
    (alloc_route size = some AllocPath.big ↔ size + sizeOfJlTaggedValue > 2032) ∧
    (alloc_route size = some AllocPath.pool → (find_pool size).isSome) := by
  unfold alloc_route
  simp only [GC_MAX_SZCLASS, sizeOfJlTaggedValue] at hof ⊢
  rw [if_pos hof]
  by_cases h : size + 8 ≤ 2032 - 8 + 8
  · rw [if_pos h]
    refine ⟨by simp; omega, fun _ => ?_⟩
    unfold find_pool GC_MAX_SZCLASS
    have hsz : ¬ (size > 2032 - 8) := by omega
    rw [if_neg hsz]
    cases hidx : GC_SIZE_CLASSES.findIdx? (fun c => size ≤ c)
    · exfalso
      have hall := List.findIdx?_eq_none_iff.mp hidx 2032 (by decide)
      simp only [decide_eq_false_iff_not, not_le] at hall
      omega
    · rfl
  · rw [if_neg h]
    refine ⟨by simp; omega, fun hpool => ?_⟩
    exact absurd hpool (by simp)

/-- Witness for C1 at the concrete size 2033 (routed big: 2041 > 2032). -/
theorem alloc_route_threshold_witness :
    (alloc_route 2033 = some AllocPath.big ↔ 2033 + sizeOfJlTaggedValue > 2032) ∧
    (alloc_route 2033 = some AllocPath.pool → (find_pool 2033).isSome) :=
  alloc_route_threshold 2033 (by decide)

/-- The mark bit of a header freshly tagged by `set_tag` is the tag's low bit. -/
lemma marked64_set_tag (h t : Nat) (ht : t < 4) :
    marked64 (set_tag h t) = t.testBit 0 := by
  unfold marked64
  rw [get_bit_eq_testBit _ 0 (by unfold W; omega), set_tag_testBit_zero h t ht]

/-- The mark bit read through the two-bit color tag is the header's low bit. -/
lemma tag64_testBit_zero (h : Nat) : (tag64 h).testBit 0 = h.testBit 0 := by
  rw [tag64_eq_mod]
  have h4 : (4 : Nat) = 2 ^ 2 := by norm_num
  rw [h4, Nat.testBit_mod_two_pow]
  simp

/-!
C2 and C5: the per-cell action of the pool sweep
(`Gc2::sweep_pool_chunk`, gc2.rs lines 2198-2223) and the per-record
action of the big-object sweep (`Gc2::sweep_big_list`, gc2.rs lines
2294-2322).  A cell is identified with its header word; the page sweep
reads the two-bit color `bits = o.tag()`, and either updates it in place
(survivor, also setting the cell's age bit and possibly the page's
`has_young`) or pushes the cell, header untouched, onto the owning pool's
free list.
-/

/-- Fate of one pool cell under `sweep_pool_chunk`: either it survives with
a rewritten header (carrying the new age bit and its `has_young`
contribution), or it is pushed onto the free list with the given header. -/
inductive CellFate where
  | survive (header : Nat) (ageBit : Bool) (hasYoung : Bool)
  | freed (header : Nat)
  deriving DecidableEq, Repr

/-- Per-cell action of `Gc2::sweep_pool_chunk` (gc2.rs lines 2198-2223).
`marked()` on the `u8` color is its low bit. -/
def sweep_pool_cell (full ageBit : Bool) (h : Nat) : CellFate :=
  let bits := tag64 h
  if bits.testBit 0 then
    if ageBit || bits == GC_OLD_MARKED then
      let bits2 := if full || bits == GC_MARKED then GC_OLD else bits
      CellFate.survive (set_tag h bits2) true false
    else
      CellFate.survive (set_tag h GC_CLEAN) true true
  else
    CellFate.freed h

/-- Fate of one big-object record under `sweep_big_list`: survive with a
rewritten header and age, or be freed. -/
inductive BigFate where
  | survive (header : Nat) (age : Nat)
  | freed
  deriving DecidableEq, Repr

/-- `BigVal::inc_age` (gc.rs lines 276-281): increment the two-bit age,
saturating at `PROMOTE_AGE`. -/
def inc_age (age : Nat) : Nat := if age < PROMOTE_AGE then age + 1 else age

/-- Per-record action of `Gc2::sweep_big_list` (gc2.rs lines 2294-2322). -/
def sweep_big_val (full : Bool) (age : Nat) (h : Nat) : BigFate :=
  let bits := tag64 h
  if bits.testBit 0 then
    if age ≥ PROMOTE_AGE || bits == GC_OLD_MARKED then
      let bits2 := if full || bits == GC_MARKED then GC_OLD else bits
      BigFate.survive (set_tag h bits2) age
    else
      BigFate.survive (set_tag h GC_CLEAN) (inc_age age)
  else
    BigFate.freed

/-- Initialization of one fresh-page cell in `Gc2::add_page`
(gc2.rs lines 1625-1631): `v.set_tag(0)`, everything else untouched. -/
def add_page_cell (h : Nat) : Nat := set_tag h GC_CLEAN

/-- C2 counterexample: on a quick sweep a surviving `OLD_MARKED` pool cell
keeps its header `OLD_MARKED`, so its mark bit is still set at cycle end. -/
theorem sweep_quick_marked_counterexample :
    sweep_pool_cell false true 3 = CellFate.survive 3 true false ∧
    marked64 3 = true := by
  constructor
  · decide
  · decide

/-- C2 (amended): at the end of every full collection cycle, every
surviving pool cell and big object has an unmarked header (`GC_MARKED`
survivors are demoted to `GC_OLD` or `GC_CLEAN`, `GC_OLD_MARKED` to
`GC_OLD`); on a quick cycle an `OLD_MARKED` survivor keeps the tag
`OLD_MARKED`, its mark bit still set. -/
theorem sweep_end_mark_bit :
    (∀ age : Bool, ∀ h h' : Nat, ∀ a y : Bool,
      sweep_pool_cell true age h = CellFate.survive h' a y → marked64 h' = false) ∧
    (∀ age h h' a : Nat,
      sweep_big_val true age h = BigFate.survive h' a → marked64 h' = false) ∧
    (∀ age : Bool, ∀ h h' : Nat, ∀ a y : Bool, tag64 h = GC_OLD_MARKED →
      sweep_pool_cell false age h = CellFate.survive h' a y →
      tag64 h' = GC_OLD_MARKED) := by
  refine ⟨?_, ?_, ?_⟩
  · intro age h h' a y hs
    unfold sweep_pool_cell at hs
    by_cases hm : (tag64 h).testBit 0
    · simp only [hm, if_true, Bool.true_or, if_pos] at hs
      by_cases hold : (age || (tag64 h == GC_OLD_MARKED)) = true
      · simp only [hold, if_true] at hs
        cases hs
        rw [marked64_set_tag h GC_OLD (by unfold GC_OLD; omega)]
        decide
      · simp only [hold, if_false] at hs
        cases hs
        rw [marked64_set_tag h GC_CLEAN (by unfold GC_CLEAN; omega)]
        decide
    · simp only [hm, if_false] at hs
      cases hs
  · intro age h h' a hs
    unfold sweep_big_val at hs
    by_cases hm : (tag64 h).testBit 0
    · simp only [hm, if_true, Bool.true_or, if_pos] at hs
      by_cases hold : (decide (age ≥ PROMOTE_AGE) || (tag64 h == GC_OLD_MARKED)) = true
      · simp only [hold, if_true] at hs
        cases hs
        rw [marked64_set_tag h GC_OLD (by unfold GC_OLD; omega)]
        decide
      · simp only [hold, if_false] at hs
        cases hs
        rw [marked64_set_tag h GC_CLEAN (by unfold GC_CLEAN; omega)]
        decide
    · simp only [hm, if_false] at hs
      cases hs
  · intro age h h' a y htag hs
    unfold sweep_pool_cell at hs
    rw [htag] at hs
    simp only [GC_OLD_MARKED, GC_MARKED] at hs
    norm_num at hs
    rcases hs with ⟨hh, _, _⟩
    rw [← hh, tag64_set_tag h 3 (by omega)]
    rfl

/-- Witness for C2 at concrete cells: a young marked cell and big object of
a full sweep, and a quick-swept `OLD_MARKED` cell. -/
theorem sweep_end_mark_bit_witness :
    marked64 (set_tag 1 GC_CLEAN) = false ∧
    marked64 (set_tag 1 GC_CLEAN) = false ∧
    tag64 3 = GC_OLD_MARKED :=
  ⟨sweep_end_mark_bit.1 false 1 (set_tag 1 GC_CLEAN) true true (by decide),
   sweep_end_mark_bit.2.1 0 1 (set_tag 1 GC_CLEAN) (inc_age 0) (by decide),
   sweep_end_mark_bit.2.2 true 3 3 true false (by decide) (by decide)⟩

/-- C5 counterexample: an unmarked `GC_OLD` cell with a nonzero type word
(header `18 = 0b10010`) is pushed onto the free list by the sweep with its
header untouched: its color is `OLD`, not `CLEAN`, and its type tag is 16,
not zero. -/
theorem freelist_clean_counterexample :
    sweep_pool_cell false false 18 = CellFate.freed 18 ∧
    ¬ (tag64 18 = GC_CLEAN ∧ type_tag 18 = 0) := by
  constructor
  · decide
  · decide

/-- C5 (amended): every object entering a pool free list is unmarked.
Cells of a freshly added page get their two color bits cleared (color
`CLEAN`); dead cells returned by a sweep keep their whole previous header,
so they may carry color `OLD` and a nonzero type tag. -/
theorem freelist_cell_headers :
    (∀ h : Nat, tag64 (add_page_cell h) = GC_CLEAN) ∧
    (∀ full age : Bool, ∀ h h' : Nat,
      sweep_pool_cell full age h = CellFate.freed h' →
      h' = h ∧ marked64 h = false) := by
  constructor
  · intro h
    exact tag64_set_tag h GC_CLEAN (by unfold GC_CLEAN; omega)
  · intro full age h h' hs
    unfold sweep_pool_cell at hs
    by_cases hm : (tag64 h).testBit 0
    · by_cases hold : (age || (tag64 h == GC_OLD_MARKED)) = true <;>
        simp only [hm, hold, if_true, if_false] at hs <;> cases hs
    · simp only [hm, if_false] at hs
      cases hs
      refine ⟨rfl, ?_⟩
      unfold marked64
      rw [get_bit_eq_testBit _ 0 (by unfold W; omega), ← tag64_testBit_zero]
      simp only [hm]

/-- Witness for C5 at the concrete header 18. -/
theorem freelist_cell_headers_witness :
    tag64 (add_page_cell 18) = GC_CLEAN ∧ (18 = 18 ∧ marked64 18 = false) :=
  ⟨freelist_cell_headers.1 18,
   freelist_cell_headers.2 false false 18 18 (by decide)⟩

/-!
C3: the quick-versus-full decision in `Gc2::collect` (gc2.rs lines
1809-1849).  The host calls `gc_check_heap_size` (an external guardrail)
and supplies `prev_sweep_full`, `promoted_bytes`, `gc_num.interval` and
`gc_num.pause`; we package everything the decision reads into one input
record.  All signed quantities are `i64`/`c_int`, so Rust's truncating
division is written `Int.tdiv`.
-/

/-- Inputs read by the sweep decision in `Gc2::collect`. -/
structure CollectInputs where
  full : Bool
  estimate_freed : Int
  actual_allocd : Int
  nptr : Nat
  promoted_bytes : Int
  interval : Nat
  prev_sweep_full : Bool
  heap_guardrail : Bool
  pause : Int

/-- `not_freed_enough` (gc2.rs line 1809): `estimate_freed < 7 * (actual_allocd / 10)`
with `i64` truncating division. -/
def not_freed_enough (i : CollectInputs) : Bool :=
  decide (i.estimate_freed < 7 * (Int.tdiv i.actual_allocd 10))

/-- `large_frontier` (gc2.rs line 1816): `nptr * size_of::<*mut c_void>() >=
DEFAULT_COLLECT_INTERVAL` as a `usize` comparison. -/
def large_frontier (i : CollectInputs) : Bool :=
  decide (i.nptr * 8 ≥ 45875200)

/-- The `sweep_full` flag computed by `Gc2::collect` (gc2.rs lines 1820-1849):
the whole disjunction is conjoined with `gc_num.pause > 1`. -/
def collect_sweep_full (i : CollectInputs) : Bool :=
  (i.full || large_frontier i ||
    ((not_freed_enough i || decide (i.promoted_bytes ≥ (i.interval : Int))) &&
      (decide (i.promoted_bytes ≥ DEFAULT_COLLECT_INTERVAL) || i.prev_sweep_full)) ||
    i.heap_guardrail) && decide (i.pause > 1)

/-- Modelled from the claim's words (for comparison only): full sweep when
the caller requested it, or `large_frontier`, or (`not_freed_enough` or
`promoted >= interval`) and (`promoted >= DEFAULT_COLLECT_INTERVAL` or the
previous sweep was full), or the guardrail fires, with `not_freed_enough`
read as the exact rational comparison `estimate_freed < 0.7 * actual_allocd`. -/
def collect_sweep_full_claimed (i : CollectInputs) : Bool :=
  i.full || large_frontier i ||
    ((decide (10 * i.estimate_freed < 7 * i.actual_allocd) ||
        decide (i.promoted_bytes ≥ (i.interval : Int))) &&
      (decide (i.promoted_bytes ≥ DEFAULT_COLLECT_INTERVAL) || i.prev_sweep_full)) ||
    i.heap_guardrail

/-- Concrete decision input: the caller requests a full sweep while
`gc_num.pause = 0`. -/
def collectInputPause0 : CollectInputs :=
  { full := true, estimate_freed := 0, actual_allocd := 0, nptr := 0,
    promoted_bytes := 0, interval := 0, prev_sweep_full := false,
    heap_guardrail := false, pause := 0 }

/-- C3 counterexample: with `full = true` but `gc_num.pause = 0` the code
performs a quick sweep, although the claimed condition (which never
mentions `pause`) demands a full one. -/
theorem collect_decision_counterexample :
    collect_sweep_full collectInputPause0 = false ∧
    collect_sweep_full_claimed collectInputPause0 = true := by
  constructor
  · decide
  · decide

/-- C3 (amended): the cycle performs a full sweep exactly when (the caller
requested full, OR large_frontier, OR ((not_freed_enough OR promoted ≥
interval) AND (promoted ≥ DEFAULT_COLLECT_INTERVAL OR the previous sweep
was full)), OR the host guardrail fires) AND `gc_num.pause > 1`, where
`not_freed_enough` is the truncating-integer comparison
`estimate_freed < 7 * (actual_allocd / 10)`. -/
theorem collect_decision_amended (i : CollectInputs) :
    collect_sweep_full i = true ↔
      ((i.full = true ∨ i.nptr * 8 ≥ 45875200 ∨
        ((i.estimate_freed < 7 * Int.tdiv i.actual_allocd 10 ∨
            i.promoted_bytes ≥ (i.interval : Int)) ∧
          (i.promoted_bytes ≥ DEFAULT_COLLECT_INTERVAL ∨ i.prev_sweep_full = true)) ∨
        i.heap_guardrail = true) ∧ i.pause > 1) := by
  unfold collect_sweep_full not_freed_enough large_frontier
  constructor
  · intro hc
    simp only [Bool.and_eq_true, Bool.or_eq_true, decide_eq_true_eq] at hc
    tauto
  · intro hc
    simp only [Bool.and_eq_true, Bool.or_eq_true, decide_eq_true_eq]
    tauto

/-- Witness for C3: the amended condition holds at `full = true`,
`pause = 2`, and the code then selects a full sweep. -/
theorem collect_decision_amended_witness :
    collect_sweep_full
      { full := true, estimate_freed := 0, actual_allocd := 0, nptr := 0,
        promoted_bytes := 0, interval := 0, prev_sweep_full := false,
        heap_guardrail := false, pause := 2 } = true :=
  (collect_decision_amended _).mpr (by constructor
                                       · left
                                         rfl
                                       · decide)

/-!
C6: per-pair action of `Gc2::sweep_finalizer_list` (gc2.rs lines
2012-2093).  The flat list holds pairs `(v0, fin)`; `tags` maps an object
word to its current header.  The code computes
`is_cptr = (v0 as usize).marked()` -- the low bit of the OBJECT word --
then removes and dispatches the pair when the referent is unmarked.
-/

/-- `UIntExtras::clear_tag` with mask 1 (util.rs lines 87-89): `self & !mask`. -/
def clear_tag1 (x : Nat) : Nat := x &&& not64 1

/-- What happens to one finalizer pair during `sweep_finalizer_list`. -/
inductive FinStep where
  | spliceOut
  | nativeCall (fin v : Nat)
  | schedule (v fin : Nat)
  | moveToMarked (v0 fin : Nat)
  | keep
  deriving DecidableEq, Repr

/-- Per-pair action of `Gc2::sweep_finalizer_list` (gc2.rs lines 2019-2089):
null pairs are spliced out; unmarked referents dispatch natively when the
object word's low bit is set, otherwise are pushed to `to_finalize`;
`OLD_MARKED` referents with surviving finalizers move to
`finalizer_list_marked` (never from that list itself). -/
def finalizer_step (tags : Nat → Nat) (inMarkedList : Bool) (v0 fin : Nat) : FinStep :=
  if v0 = 0 then
    FinStep.spliceOut
  else
    let is_cptr := marked64 v0
    let v := clear_tag1 v0
    let isfreed := ! marked64 (tags v)
    let isold := (! inMarkedList) && (tag64 (tags v) == GC_OLD_MARKED) &&
      (is_cptr || (tag64 (tags fin) == GC_OLD_MARKED))
    if isfreed then
      if is_cptr then FinStep.nativeCall fin v else FinStep.schedule v fin
    else if isold then
      FinStep.moveToMarked v0 fin
    else
      FinStep.keep

/-- C6 counterexample: the pair `(5, 4)` with an unmarked referent is
dispatched natively although the action word 4 has a clear low bit; the
native flag lives in the object word's low bit, not the action's. -/
theorem finalizer_native_flag_counterexample :
    finalizer_step (fun _ => 0) false 5 4 = FinStep.nativeCall 4 4 ∧
    Nat.testBit 4 0 = false := by
  constructor
  · decide
  · decide

/-- C6 (amended): during per-cycle finalizer processing, a pair whose
referent is unmarked has its action invoked natively iff the low bit of
the stored OBJECT word is set; otherwise the pair moves to `to_finalize`. -/
theorem finalizer_native_flag (tags : Nat → Nat) (inML : Bool) (v0 fin : Nat)
    (hnz : v0 ≠ 0) (hunmarked : marked64 (tags (clear_tag1 v0)) = false) :
    finalizer_step tags inML v0 fin =
      (if marked64 v0 then FinStep.nativeCall fin (clear_tag1 v0)
       else FinStep.schedule (clear_tag1 v0) fin) := by
  unfold finalizer_step
  rw [if_neg hnz]
  simp only [hunmarked, Bool.not_false, if_true]

/-- Witness for C6 at the pair `(5, 4)` over an all-unmarked heap. -/
theorem finalizer_native_flag_witness :
    finalizer_step (fun _ => 0) false 5 4 =
      (if marked64 5 then FinStep.nativeCall 4 (clear_tag1 5)
       else FinStep.schedule (clear_tag1 5) 4) :=
  finalizer_native_flag (fun _ => 0) false 5 4 (by decide) (by decide)

/-!
C7: the value write barrier `Gc2::queue_root` (gc2.rs lines 2649-2659).
We track the state it touches: the parent object's header, the owning
thread heap's `remset`, `remset_nptr`, and (untouched here) `rem_bindings`.
-/

/-- The slice of a thread heap visible to `queue_root`: the parent's header
word plus the remembered-set state. -/
structure WBHeap where
  header : Nat
  remset : List Nat
  remset_nptr : Nat
  rem_bindings : List Nat
  deriving DecidableEq, Repr

/-- `Gc2::queue_root` (gc2.rs lines 2650-2659): force the parent's tag to
`GC_MARKED`, push the parent onto `remset`, and bump `remset_nptr` by one. -/
def queue_root (st : WBHeap) (root : Nat) : WBHeap :=
  { st with
      header := set_tag st.header GC_MARKED,
      remset := st.remset ++ [root],
      remset_nptr := st.remset_nptr + 1 }

/-- C7: for a parent whose color is `OLD_MARKED`, `queue_root` downgrades
the color to `MARKED` (leaving the type bits intact), appends the parent to
the owning thread's remset, increments that thread's `remset_nptr` by
exactly one, and leaves the rest of the heap state unchanged. -/
theorem queue_root_spec (st : WBHeap) (root : Nat)
    (_hc : tag64 st.header = GC_OLD_MARKED) (hw : st.header < 2 ^ W) :
    tag64 (queue_root st root).header = GC_MARKED ∧
    type_tag (queue_root st root).header = type_tag st.header ∧
    (queue_root st root).remset = st.remset ++ [root] ∧
    (queue_root st root).remset_nptr = st.remset_nptr + 1 ∧
    (queue_root st root).rem_bindings = st.rem_bindings := by
  refine ⟨?_, ?_, rfl, rfl, rfl⟩
  · exact tag64_set_tag st.header GC_MARKED (by unfold GC_MARKED; omega)
  · exact type_tag_set_tag st.header GC_MARKED (by unfold GC_MARKED; omega) hw

/-- Witness for C7 at the concrete heap with parent header 51 (`OLD_MARKED`
with type bits 48). -/
theorem queue_root_spec_witness :
    tag64 (queue_root ⟨51, [], 0, []⟩ 7).header = GC_MARKED ∧
    type_tag (queue_root ⟨51, [], 0, []⟩ 7).header = type_tag 51 ∧
    (queue_root ⟨51, [], 0, []⟩ 7).remset = [] ++ [7] ∧
    (queue_root ⟨51, [], 0, []⟩ 7).remset_nptr = 0 + 1 ∧
    (queue_root ⟨51, [], 0, []⟩ 7).rem_bindings = [] :=
  queue_root_spec ⟨51, [], 0, []⟩ 7 (by decide) (by decide)

/-!
C4: the intrusive big-object lists (`Gc2::unlink_big_object`, gc2.rs lines
1892-1919, and the insertions in `MarkCache::sync_cache_nolock`, gc2.rs
lines 776-814).  A record is identified by an id (its address); the store
maps ids to the record fields `tid`, `in_list`, `slot`; `tid < 0` selects
the shared `big_objects_marked` list, otherwise the big list of the thread
`tid`.
-/

/-- The intrusive bookkeeping fields of a `BigVal` (gc.rs lines 217-230). -/
structure BigRec where
  tid : Int
  in_list : Bool
  slot : Nat
  deriving DecidableEq, Repr

/-- Record store plus the lists that hold record ids. -/
structure BigLists where
  recs : List BigRec
  marked : List Nat
  threads : List (List Nat)
  deriving DecidableEq, Repr

/-- Rust `Vec::swap_remove(i)`: move the last element into position `i` and
pop the last slot. -/
def swap_remove (l : List Nat) (i : Nat) : List Nat :=
  (l.set i (l.getLast?.getD 0)).dropLast

/-- The list identified by a record's `tid` field. -/
def list_at (st : BigLists) (tid : Int) : List Nat :=
  if tid < 0 then st.marked else (st.threads.get? tid.toNat).getD []

/-- `Gc2::unlink_big_object` (gc2.rs lines 1892-1919): no-op unless
`in_list`; otherwise `swap_remove` the record's `slot` from the list named
by its `tid`, then clear `slot` and `in_list` on the record itself.  The
record moved into the vacated slot is NOT touched. -/
def unlink_big_object (st : BigLists) (id : Nat) : BigLists :=
  match st.recs.get? id with
  | none => st
  | some b =>
    if ! b.in_list then
      st
    else if b.tid < 0 then
      { st with
          marked := swap_remove st.marked b.slot,
          recs := st.recs.set id { b with in_list := false, slot := 0 } }
    else
      { st with
          threads := st.threads.set b.tid.toNat
            (swap_remove ((st.threads.get? b.tid.toNat).getD []) b.slot),
          recs := st.recs.set id { b with in_list := false, slot := 0 } }

/-- The claimed invariant: every in-list record is found at its `slot` in
the list named by its `tid`. -/
def slot_inv (st : BigLists) : Bool :=
  (List.range st.recs.length).all fun id =>
    match st.recs.get? id with
    | none => true
    | some b => ! b.in_list || ((list_at st b.tid).get? b.slot == some id)

/-- Two in-list records of thread 0, at slots 0 and 1 of its big list. -/
def twoRecState : BigLists :=
  { recs := [⟨0, true, 0⟩, ⟨0, true, 1⟩],
    marked := [],
    threads := [[0, 1]] }

/-- C4 failing input: unlinking record 0 swap-moves record 1 into slot 0 of
thread 0's list but leaves record 1's `slot` field at 1, so the invariant
`list_at(r.tid)[r.slot] = r` no longer holds for record 1. -/
theorem unlink_slot_invariant_bug :
    slot_inv twoRecState = true ∧
    (unlink_big_object twoRecState 0).threads = [[1]] ∧
    slot_inv (unlink_big_object twoRecState 0) = false := by
  refine ⟨?_, ?_, ?_⟩
  · decide
  · decide
  · decide

/-!
C8: the depth-bounded recursive scan `Marking::scan_obj` (gc2.rs lines
970-1093).  The scan returns without pushing anything for weak references
(gc2.rs lines 979-981) and for pointerless layouts (gc2.rs lines 983-985)
BEFORE the depth check; only then does it increment the depth
(`let d = _d + 1`, line 987) and push the object onto the overflow mark
stack once `d >= MAX_MARK_DEPTH` (lines 988-992); pointer arrays with more
than 100000 elements are deferred whenever `d > MAX_MARK_DEPTH - 10`
(lines 1031-1036).  The heap is an arbitrary (possibly cyclic) graph of
object ids; only the object shapes the scan dispatches on are
distinguished, and the function returns the list of overflow-stack pushes. -/

/-- Shape of an object as dispatched on by `scan_obj`: pointerless layouts
(`npointers() == 0`, the fast path), weak references (skipped), simple
vectors, pointer arrays with their element count, and everything scanned
field-by-field (modules, tasks, generic datatypes). -/
inductive ObjKind where
  | pointerless
  | weakref
  | svec (elems : List Nat)
  | parray (len : Nat) (elems : List Nat)
  | composite (fields : List Nat)

/-- An object graph: each id has a shape (edges may form cycles). -/
structure ObjGraph where
  kind : Nat → ObjKind

/-- The kinds for which `scan_obj` returns before the depth check:
weak references (gc2.rs lines 979-981) and pointerless layouts
(gc2.rs lines 983-985). -/
def scan_early_return : ObjKind → Bool
  | ObjKind.weakref => true
  | ObjKind.pointerless => true
  | _ => false

/-- `Marking::scan_obj` (gc2.rs lines 970-1093), modelled as the list of
overflow-stack pushes it performs.  The weakref/pointerless early returns
precede the depth check, as in the source; the final match arm is
unreachable (those kinds were already handled).  Lean accepts the
recursion as well-founded on `MAX_MARK_DEPTH - _d`, which is exactly the
claim that the depth-bounded scan terminates on every graph. -/
def scan_obj (g : ObjGraph) (v : Nat) (_d : Nat) : List Nat :=
  if scan_early_return (g.kind v) then
    []
  else
    let d := _d + 1
    if MAX_MARK_DEPTH ≤ d then
      [v]
    else
      match g.kind v with
      | ObjKind.svec elems => elems.flatMap fun e => scan_obj g e d
      | ObjKind.parray len elems =>
          if 100000 < len ∧ MAX_MARK_DEPTH - 10 < d then
            [v]
          else
            elems.flatMap fun e => scan_obj g e d
      | ObjKind.composite fields => fields.flatMap fun e => scan_obj g e d
      | _ => []
termination_by MAX_MARK_DEPTH - _d
decreasing_by all_goals omega

/-- A graph whose every node is a weak reference. -/
def weakrefGraph : ObjGraph := ⟨fun _ => ObjKind.weakref⟩

/-- C8 counterexample: a weak reference entered at depth 40 (past the
limit) returns without being pushed onto the overflow stack, because the
weakref early return precedes the depth check; the claim as stated would
demand the result `[0]`. -/
theorem scan_obj_claim_counterexample :
    scan_obj weakrefGraph 0 40 = [] ∧ scan_obj weakrefGraph 0 40 ≠ [0] := by
  have h : scan_obj weakrefGraph 0 40 = [] := by
    unfold scan_obj
    simp [weakrefGraph, scan_early_return]
  exact ⟨h, by rw [h]; decide⟩

/-- C8 (amended): the recursive scan never descends past
`MAX_MARK_DEPTH = 40`: every object that is neither a weak reference nor
pointerless, entered at the depth limit, is pushed onto the overflow stack
with no children scanned; weak references and pointerless objects return
without a push at any depth (their early returns precede the depth check);
a pointer array with more than 100000 elements reached within 10 of the
limit is deferred whole.  The scan itself is a total (well-founded)
function on arbitrary graphs. -/
theorem scan_obj_depth_bound (g : ObjGraph) (v d : Nat) :
    (scan_early_return (g.kind v) = false → MAX_MARK_DEPTH ≤ d + 1 →
      scan_obj g v d = [v]) ∧
    (scan_early_return (g.kind v) = true → scan_obj g v d = []) ∧
    (∀ len elems, g.kind v = ObjKind.parray len elems → 100000 < len →
      MAX_MARK_DEPTH - 10 < d + 1 → scan_obj g v d = [v]) := by
  refine ⟨?_, ?_, ?_⟩
  · intro hk hd
    unfold scan_obj
    simp [hk, hd]
  · intro hk
    unfold scan_obj
    simp [hk]
  · intro len elems hkind hlen hd
    have hk : scan_early_return (g.kind v) = false := by
      rw [hkind]
      rfl
    unfold scan_obj
    rw [hk]
    by_cases hmax : MAX_MARK_DEPTH ≤ d + 1
    · simp [hmax]
    · simp only [Bool.false_eq_true, if_false]
      rw [if_neg hmax, hkind]
      show (if 100000 < len ∧ MAX_MARK_DEPTH - 10 < d + 1 then [v]
            else elems.flatMap fun e => scan_obj g e (d + 1)) = [v]
      rw [if_pos ⟨hlen, hd⟩]

/-- A graph whose every node is a pointer array with 100001 elements. -/
def hugeArrayGraph : ObjGraph := ⟨fun _ => ObjKind.parray 100001 []⟩

/-- Witness for C8: the 100001-element pointer array entered at depth 39
is pushed, a weak reference entered at depth 5 is not, and the same array
entered at depth 31 is deferred whole. -/
theorem scan_obj_depth_bound_witness :
    scan_obj hugeArrayGraph 0 39 = [0] ∧
    scan_obj weakrefGraph 0 5 = [] ∧
    scan_obj hugeArrayGraph 0 31 = [0] :=
  ⟨(scan_obj_depth_bound hugeArrayGraph 0 39).1 (by decide) (by decide),
   (scan_obj_depth_bound weakrefGraph 0 5).2.1 (by decide),
   (scan_obj_depth_bound hugeArrayGraph 0 31).2.2 100001 [] rfl (by decide) (by decide)⟩

/-!
C9: the size handed to the unmanaged allocator by `Gc2::big_alloc`
(gc2.rs lines 1654-1688) versus the size `BigVal::allocd_size`
(gc.rs lines 238-240) later hands to the deallocator in `sweep_big_list`
(gc2.rs line 2320).  `mem::size_of::<BigVal>()` is 56 on the 64-bit
target (`next` 8 + `prev` 8 + `szOrAge` 8 + `tid` 2 + `in_list` 1 +
padding 5 + `slot` 8 + `padding: [u64; 2]` 16), and
`BigVal::true_size() = 56 + 8 = 64`.
-/

/-- `llt_align` (c_interface.rs lines 747-749):
`(x + sz - 1) & -(sz)` with the two's-complement negation of the
power-of-two alignment on the 64-bit word. -/
def llt_align (x sz : Nat) : Nat := (x + sz - 1) &&& (2 ^ W - sz)

/-- `mem::size_of::<BigVal>()` on the 64-bit target. -/
def SIZE_OF_BIGVAL : Nat := 56

/-- `BigVal::true_size` (gc.rs lines 234-236): record plus header. -/
def bigval_true_size : Nat := SIZE_OF_BIGVAL + sizeOfJlTaggedValue

/-- Bytes requested from the unmanaged allocator by `Gc2::big_alloc`
(gc2.rs lines 1656-1666): `size_of::<BigVal>().checked_add(size)` rounded
up to the cache line (`size` already includes the header word; `none`
models the overflow panic). -/
def big_alloc_request (size : Nat) : Option Nat :=
  if SIZE_OF_BIGVAL + size < 2 ^ W then
    some (llt_align (SIZE_OF_BIGVAL + size) JL_CACHE_BYTE_ALIGNMENT)
  else
    none

/-- The `szOrAge` field after `big_alloc` stores it (gc2.rs lines
1670-1671): `sz_or_age = size` followed by `set_age(0)`, which is
`set_bits(0..2, 0)` (gc.rs lines 270-272) and so clears the size's two
low bits. -/
def bigval_stored_szOrAge (size : Nat) : Nat := set_bits size 0 2 0

/-- `BigVal::size` (gc.rs lines 252-255): `szOrAge.get_bits(2..64) << 2`. -/
def bigval_size (szOrAge : Nat) : Nat := shl64 (get_bits szOrAge 2 W) 2

/-- `BigVal::allocd_size` (gc.rs lines 238-240) for a record created by
`big_alloc(size)`: `llt_align(self.size() + BigVal::true_size(), 64)`.
This is the byte count `sweep_big_list` passes to the deallocator. -/
def allocd_size (size : Nat) : Nat :=
  llt_align (bigval_size (bigval_stored_szOrAge size) + bigval_true_size)
    JL_CACHE_BYTE_ALIGNMENT

/-- C9 failing input: `alloc` with a 2048-byte payload calls
`big_alloc(2056)`; the allocation requests `llt_align(56 + 2056, 64) =
2112` bytes, but `allocd_size` recomputes `llt_align(2056 + 64, 64) =
2176` (it adds `true_size`, double-counting the header word already inside
the stored size), so the sweep frees with a size 64 bytes larger than was
allocated. -/
theorem big_free_size_mismatch :
    big_alloc_request 2056 = some 2112 ∧ allocd_size 2056 = 2176 := by
  constructor
  · decide
  · decide

end Neptune
